import Mathlib

/-!
Verification of the Linux process backend (gumprocess-linux.c).

Shallow embedding of `src/gum/backend-linux/gumprocess-linux.c`: the
CPU-context marshaller, the thread-context broker (`gum_process_modify_thread`),
the module/range enumerators over parsed `/proc/<pid>/maps` lines, and the ELF
export resolver, together with theorems settling the specification claims.

Machine words are modelled as `Nat`; file contents and process memory are
modelled as functions from offsets/addresses to the parsed records the C code
reads there.
-/

/-! ## CPU-context marshaller

`ucontext_t` is modelled by its general-register array `gregs`, a total
function from the glibc register index to the register value.  The glibc
x86-64 indices (`REG_R8 = 0` … `REG_RIP = 16`) and i386 indices
(`REG_GS = 0` … `REG_EIP = 14`) are reproduced below.
-/

structure UContext where
  gregs : Nat → Nat

def REG_R8 : Nat := 0
def REG_R9 : Nat := 1
def REG_R10 : Nat := 2
def REG_R11 : Nat := 3
def REG_R12 : Nat := 4
def REG_R13 : Nat := 5
def REG_R14 : Nat := 6
def REG_R15 : Nat := 7
def REG_RDI : Nat := 8
def REG_RSI : Nat := 9
def REG_RBP : Nat := 10
def REG_RBX : Nat := 11
def REG_RDX : Nat := 12
def REG_RAX : Nat := 13
def REG_RCX : Nat := 14
def REG_RSP : Nat := 15
def REG_RIP : Nat := 16

def REG_GS : Nat := 0
def REG_FS : Nat := 1
def REG_ES : Nat := 2
def REG_DS : Nat := 3
def REG_EDI : Nat := 4
def REG_ESI : Nat := 5
def REG_EBP : Nat := 6
def REG_ESP : Nat := 7
def REG_EBX : Nat := 8
def REG_EDX : Nat := 9
def REG_ECX : Nat := 10
def REG_EAX : Nat := 11
def REG_EIP : Nat := 14

/-- The x86-64 `GumCpuContext` register bank: instruction pointer plus the
sixteen general-purpose registers, exactly the fields the marshaller covers. -/
structure GumCpuContext where
  rip : Nat
  r15 : Nat
  r14 : Nat
  r13 : Nat
  r12 : Nat
  r11 : Nat
  r10 : Nat
  r9 : Nat
  r8 : Nat
  rdi : Nat
  rsi : Nat
  rbp : Nat
  rsp : Nat
  rbx : Nat
  rdx : Nat
  rcx : Nat
  rax : Nat
deriving DecidableEq

/-- The x86-32 `GumCpuContext` register bank. -/
structure GumCpuContextIa32 where
  eip : Nat
  edi : Nat
  esi : Nat
  ebp : Nat
  esp : Nat
  ebx : Nat
  edx : Nat
  ecx : Nat
  eax : Nat
deriving DecidableEq

/-- Model of `gum_cpu_context_from_linux`, x86-64 branch: read each covered register
out of `uc->uc_mcontext.gregs`. -/
def gum_cpu_context_from_linux (uc : UContext) : GumCpuContext :=
  { rip := uc.gregs REG_RIP
    r15 := uc.gregs REG_R15
    r14 := uc.gregs REG_R14
    r13 := uc.gregs REG_R13
    r12 := uc.gregs REG_R12
    r11 := uc.gregs REG_R11
    r10 := uc.gregs REG_R10
    r9 := uc.gregs REG_R9
    r8 := uc.gregs REG_R8
    rdi := uc.gregs REG_RDI
    rsi := uc.gregs REG_RSI
    rbp := uc.gregs REG_RBP
    rsp := uc.gregs REG_RSP
    rbx := uc.gregs REG_RBX
    rdx := uc.gregs REG_RDX
    rcx := uc.gregs REG_RCX
    rax := uc.gregs REG_RAX }

/-- Model of `gum_cpu_context_to_linux`, x86-64 branch: store each covered register
into `uc->uc_mcontext.gregs`, in the order the C code writes them. -/
def gum_cpu_context_to_linux (ctx : GumCpuContext) (uc : UContext) : UContext :=
  { gregs :=
      Function.update (Function.update (Function.update (Function.update
      (Function.update (Function.update (Function.update (Function.update
      (Function.update (Function.update (Function.update (Function.update
      (Function.update (Function.update (Function.update (Function.update
      (Function.update uc.gregs
        REG_RIP ctx.rip)
        REG_R15 ctx.r15) REG_R14 ctx.r14) REG_R13 ctx.r13) REG_R12 ctx.r12)
        REG_R11 ctx.r11) REG_R10 ctx.r10) REG_R9 ctx.r9) REG_R8 ctx.r8)
        REG_RDI ctx.rdi) REG_RSI ctx.rsi) REG_RBP ctx.rbp) REG_RSP ctx.rsp)
        REG_RBX ctx.rbx) REG_RDX ctx.rdx) REG_RCX ctx.rcx) REG_RAX ctx.rax }

/-- Model of `gum_cpu_context_from_linux`, x86-32 branch. -/
def gum_cpu_context_from_linux_ia32 (uc : UContext) : GumCpuContextIa32 :=
  { eip := uc.gregs REG_EIP
    edi := uc.gregs REG_EDI
    esi := uc.gregs REG_ESI
    ebp := uc.gregs REG_EBP
    esp := uc.gregs REG_ESP
    ebx := uc.gregs REG_EBX
    edx := uc.gregs REG_EDX
    ecx := uc.gregs REG_ECX
    eax := uc.gregs REG_EAX }

/-- Model of `gum_cpu_context_to_linux`, x86-32 branch. -/
def gum_cpu_context_to_linux_ia32 (ctx : GumCpuContextIa32) (uc : UContext) :
    UContext :=
  { gregs :=
      Function.update (Function.update (Function.update (Function.update
      (Function.update (Function.update (Function.update (Function.update
      (Function.update uc.gregs
        REG_EIP ctx.eip)
        REG_EDI ctx.edi) REG_ESI ctx.esi) REG_EBP ctx.ebp) REG_ESP ctx.esp)
        REG_EBX ctx.ebx) REG_EDX ctx.edx) REG_ECX ctx.ecx) REG_EAX ctx.eax }

/-! ## Thread context broker (`gum_process_modify_thread`)

The process-global rendezvous state (the three volatile flags, the shared
`GumCpuContext` buffer, and the installed action for `GUM_HIJACK_SIGNAL`) is
made explicit as a state record threaded through the call.  The environment
supplies what the kernel primitives return: the caller's thread id
(`SYS_gettid`), the context captured by `getcontext`, the success of the
`SYS_tgkill` syscall, and the `ucontext_t` delivered to the target thread's
signal handler.  Visitors are pure: `func tid ctx` is the context after the
caller's in-place mutation.
-/

/-- Process-global state owned by the broker: the three volatile flags, the
shared context buffer, and the signal action currently installed for
`GUM_HIJACK_SIGNAL` (an opaque tag; `gumDoModifyThreadAction` names the
broker's own handler).  `mutexHeld` models the `gum_modify_thread` lock. -/
structure GumGlobalState where
  did_load_cpu_context : Bool
  did_modify_cpu_context : Bool
  did_store_cpu_context : Bool
  cpu_context : GumCpuContext
  hijackAction : Nat
  mutexHeld : Bool
deriving DecidableEq

/-- Tag for the signal action whose handler is `gum_do_modify_thread`. -/
def gumDoModifyThreadAction : Nat := 1

/-- Environment of one `gum_process_modify_thread` call: what the kernel
primitives return during that call. -/
structure ModifyThreadEnv where
  currentTid : Nat
  ucSelf : UContext
  tgkillOk : Bool
  targetUc : UContext

/-- Observable outcome of one `gum_process_modify_thread` call. -/
structure ModifyThreadResult where
  success : Bool
  state : GumGlobalState
  visitorCalls : Nat
  acquiredMutex : Bool
  signalHandlerRan : Bool
  resumedCtx : Option UContext
  targetResumedCtx : Option UContext

/-- Outcome of one pass through the same-thread fast-path body: either the
body executed `setcontext` (control will re-enter at the `getcontext` return
with the recorded `modified` flag and context), or it fell through to the
`success = TRUE` return. -/
inductive FastPassOutcome where
  | restore (modified : Bool) (uc : UContext)
  | fallThrough

/-- One pass of the fast-path body of `gum_process_modify_thread` (the code
between the return of `getcontext` and either `setcontext` or the fall
through): tests the volatile local `modified`, and when it is still false,
converts the capture, invokes the visitor, marshals back, sets `modified`,
and restores.  The second component counts visitor invocations in the pass. -/
def gum_modify_thread_fast_pass (tid : Nat)
    (func : Nat → GumCpuContext → GumCpuContext) (modified : Bool)
    (uc : UContext) : FastPassOutcome × Nat :=
  if modified then
    (.fallThrough, 0)
  else
    let cpu_context := gum_cpu_context_from_linux uc
    let cpu_context := func tid cpu_context
    let uc := gum_cpu_context_to_linux cpu_context uc
    (.restore true uc, 1)

/-- Iterate `gum_modify_thread_fast_pass` from the first `getcontext` return:
each `setcontext` re-enters the body at the `getcontext` return point with
the updated context and the surviving volatile `modified` flag.  Returns the
total number of visitor invocations and the context in force when the body
finally falls through; `none` only when the fuel runs out. -/
def gum_modify_thread_fast_run (tid : Nat)
    (func : Nat → GumCpuContext → GumCpuContext) :
    Nat → Bool → UContext → Nat → Option (Nat × UContext)
  | 0, _, _, _ => none
  | fuel + 1, modified, uc, calls =>
    match gum_modify_thread_fast_pass tid func modified uc with
    | (.fallThrough, k) => some (calls + k, uc)
    | (.restore modified2 uc2, k) =>
      gum_modify_thread_fast_run tid func fuel modified2 uc2 (calls + k)

/-- Model of `gum_process_modify_thread`.  The same-thread branch runs the fast path
(two passes suffice: the initial one and the re-entry after `setcontext`).
The cross-thread branch takes the lock, clears the flags, installs the hijack
action saving the old one, and attempts `tgkill`; on success the rendezvous
with `gum_do_modify_thread` runs in its flag-enforced order (target publishes
its context and `did_load`, requester runs the visitor and sets `did_modify`,
target writes back and sets `did_store`), and on failure nothing reaches the
target.  Either way the old action is reinstalled and the lock released. -/
def gum_process_modify_thread (env : ModifyThreadEnv) (s : GumGlobalState)
    (thread_id : Nat) (func : Nat → GumCpuContext → GumCpuContext) :
    ModifyThreadResult :=
  if thread_id = env.currentTid then
    match gum_modify_thread_fast_run thread_id func 2 false env.ucSelf 0 with
    | some (calls, ucFinal) =>
      { success := true, state := s, visitorCalls := calls
        acquiredMutex := false, signalHandlerRan := false
        resumedCtx := some ucFinal, targetResumedCtx := none }
    | none =>
      { success := false, state := s, visitorCalls := 0
        acquiredMutex := false, signalHandlerRan := false
        resumedCtx := none, targetResumedCtx := none }
  else
    let s1 : GumGlobalState :=
      { s with mutexHeld := true
               did_load_cpu_context := false
               did_modify_cpu_context := false
               did_store_cpu_context := false }
    let old_action := s1.hijackAction
    let s2 := { s1 with hijackAction := gumDoModifyThreadAction }
    if env.tgkillOk then
      let s3 := { s2 with cpu_context := gum_cpu_context_from_linux env.targetUc
                          did_load_cpu_context := true }
      let s4 := { s3 with cpu_context := func thread_id s3.cpu_context
                          did_modify_cpu_context := true }
      let ucBack := gum_cpu_context_to_linux s4.cpu_context env.targetUc
      let s5 := { s4 with did_store_cpu_context := true }
      let s6 := { s5 with hijackAction := old_action, mutexHeld := false }
      { success := true, state := s6, visitorCalls := 1
        acquiredMutex := true, signalHandlerRan := true
        resumedCtx := none, targetResumedCtx := some ucBack }
    else
      let s3 := { s2 with hijackAction := old_action, mutexHeld := false }
      { success := false, state := s3, visitorCalls := 0
        acquiredMutex := true, signalHandlerRan := false
        resumedCtx := none, targetResumedCtx := none }

/-! ## Page protection and `/proc/<pid>/maps` range enumeration

`GumPageProtection` is a bitset over Read/Write/Execute.  Its enum values
live in a header that is not part of this backend file.
Modelled from the spec: `PageProtection` is a "bitset over {Read, Write,
Execute}; NoAccess = empty", so the three members get distinct bits and
NoAccess is zero.
-/

def GUM_PAGE_NO_ACCESS : Nat := 0
def GUM_PAGE_READ : Nat := 1
def GUM_PAGE_WRITE : Nat := 2
def GUM_PAGE_EXECUTE : Nat := 4

/-- Model of `gum_page_protection_from_proc_perms_string`: decode the permissions
field of a maps line by testing characters 0, 1, 2 against `r`, `w`, `x`.
A read past the end of the string yields the NUL terminator, modelled by the
default character. -/
def gum_page_protection_from_proc_perms_string (perms : String) : Nat :=
  let cs := perms.toList
  let prot := GUM_PAGE_NO_ACCESS
  let prot := if cs.getD 0 '\x00' = 'r' then prot ||| GUM_PAGE_READ else prot
  let prot := if cs.getD 1 '\x00' = 'w' then prot ||| GUM_PAGE_WRITE else prot
  let prot := if cs.getD 2 '\x00' = 'x' then prot ||| GUM_PAGE_EXECUTE else prot
  prot

structure GumMemoryRange where
  base_address : Nat
  size : Nat
deriving DecidableEq

/-- One `/proc/<pid>/maps` line as parsed by the range-enumeration `sscanf`
format `%lx-%lx %4s`: start address, end address, and the (at most four
character) permissions field. -/
structure RangeMapsLine where
  start : Nat
  endAddr : Nat
  perms : String

/-- Unsigned 64-bit subtraction, as performed on `GumAddress` (`guint64`)
operands by `end - start`. -/
def gsub64 (a b : Nat) : Nat :=
  (a + (2 ^ 64 - b % 2 ^ 64)) % 2 ^ 64

/-- Model of `gum_linux_enumerate_ranges`, with `/proc/<pid>/maps` already parsed
into `lines`: for each line decode the current protection and, when it
satisfies the requested protection, emit `(range, current protection)` to
the visitor; a `false` from the visitor stops the walk. -/
def gum_linux_enumerate_ranges (prot : Nat)
    (func : GumMemoryRange → Nat → Bool) :
    List RangeMapsLine → List (GumMemoryRange × Nat)
  | [] => []
  | l :: rest =>
    let cur_prot := gum_page_protection_from_proc_perms_string l.perms
    if cur_prot &&& prot = prot then
      let range : GumMemoryRange :=
        { base_address := l.start, size := gsub64 l.endAddr l.start }
      if func range cur_prot then
        (range, cur_prot) :: gum_linux_enumerate_ranges prot func rest
      else
        [(range, cur_prot)]
    else
      gum_linux_enumerate_ranges prot func rest

/-! ## Module enumeration (`gum_process_enumerate_modules`)

A maps line for module enumeration is parsed by `%p-%*p %*s %*x %*s %*s %s`:
the start address plus an optional path (absent when `sscanf` matched only
one field).  Process memory enters through `mem4`, the four bytes mapped at
a given address, which the code compares against the ELF magic. -/

structure ModuleMapsLine where
  start : Nat
  path : Option String

def elf_magic : List Nat := [0x7f, 0x45, 0x4c, 0x46]

/-- Model of `g_path_get_basename`: the last component of a path; `"/"` for a
root-only path and `"."` for an empty one. -/
def g_path_get_basename (path : String) : String :=
  ((path.splitOn "/").filter (· ≠ "")).getLastD
    (if path.startsWith "/" then "/" else ".")

/-- The reading loop of `gum_process_enumerate_modules`, carrying the
`prev_path` buffer (initially empty): skip pathless lines, lines whose path
equals the previously emitted one or starts with `[`, and lines whose first
four mapped bytes are not the ELF magic; otherwise emit
`(basename, start, path)` and remember the path.  A `false` from the visitor
stops the walk. -/
def gum_enumerate_modules_loop (mem4 : Nat → List Nat)
    (func : String → Nat → String → Bool) :
    List ModuleMapsLine → String → List (String × Nat × String)
  | [], _ => []
  | l :: rest, prev_path =>
    match l.path with
    | none => gum_enumerate_modules_loop mem4 func rest prev_path
    | some path =>
      if path = prev_path || path.startsWith "[" then
        gum_enumerate_modules_loop mem4 func rest prev_path
      else if mem4 l.start ≠ elf_magic then
        gum_enumerate_modules_loop mem4 func rest prev_path
      else
        let name := g_path_get_basename path
        if func name l.start path then
          (name, l.start, path) :: gum_enumerate_modules_loop mem4 func rest path
        else
          [(name, l.start, path)]

/-- Model of `gum_process_enumerate_modules`: run the loop with an initially empty
`prev_path`. -/
def gum_process_enumerate_modules (mem4 : Nat → List Nat)
    (lines : List ModuleMapsLine) (func : String → Nat → String → Bool) :
    List (String × Nat × String) :=
  gum_enumerate_modules_loop mem4 func lines ""

/-! ## ELF export resolver (`gum_module_enumerate_exports`)

The private read-only mapping of the module's on-disk file is modelled by an
`ElfImage`: the header fields the code reads, the section header table in
table order, and two read functions giving the symbol record and the
NUL-terminated string located at a file offset.  The relevant ELF constants:
`ET_DYN = 3`, `SHT_DYNSYM = 11`, `STB_GLOBAL = 1`, `STB_WEAK = 2`,
`STT_FUNC = 2`, `SHN_UNDEF = 0`; `ELF64_ST_BIND` is `st_info >> 4` and
`ELF64_ST_TYPE` is `st_info & 0xf`.

Visitors carry a state `σ` (the C `user_data`): `func st name addr` returns
the continue flag and the updated state.  Assertion failures (`g_assert`)
abort the process and are modelled as `Except.error ()`.
-/

def ET_DYN : Nat := 3
def SHT_DYNSYM : Nat := 11
def STB_GLOBAL : Nat := 1
def STB_WEAK : Nat := 2
def STT_FUNC : Nat := 2
def SHN_UNDEF : Nat := 0

def GUM_ELF_ST_BIND (st_info : Nat) : Nat := st_info >>> 4
def GUM_ELF_ST_TYPE (st_info : Nat) : Nat := st_info &&& 0xf

structure ElfSectionHeader where
  sh_type : Nat
  sh_link : Nat
  sh_offset : Nat
  sh_size : Nat
  sh_entsize : Nat
deriving Inhabited

structure ElfSymbol where
  st_name : Nat
  st_info : Nat
  st_shndx : Nat
  st_value : Nat

/-- The memory-mapped on-disk file. -/
structure ElfImage where
  e_type : Nat
  sections : List ElfSectionHeader
  symbolAt : Nat → ElfSymbol
  stringAt : Nat → String

/-- The section-header walk of `gum_module_enumerate_exports`: every
`SHT_DYNSYM` section overwrites the recorded
`(dynsym offset, size, entry size, companion string-table offset)`, after the
`g_assert` that its size is a multiple of its entry size; all values start
at zero (`dynsym_strtab` starts NULL). -/
def gum_scan_sections (img : ElfImage) :
    Except Unit (Nat × Nat × Nat × Nat) :=
  img.sections.foldlM
    (fun acc shdr =>
      if shdr.sh_type = SHT_DYNSYM then
        let strtab_shdr := img.sections.getD shdr.sh_link default
        if shdr.sh_size % shdr.sh_entsize = 0 then
          .ok (shdr.sh_offset, shdr.sh_size, shdr.sh_entsize,
               strtab_shdr.sh_offset)
        else
          .error ()
      else
        .ok acc)
    (0, 0, 0, 0)

/-- The symbol walk of `gum_module_enumerate_exports`: symbol `i` sits at
file offset `dynsym_offset + i * entsize`; entries whose binding is global
or weak, whose type is function, and whose section index is defined are
handed to the visitor as `(strtab offset + st_name, base + st_value)`; a
`false` from the visitor stops the walk (`goto beach`).  Recursion is on the
number of entries left. -/
def gum_emit_symbols (img : ElfImage) (base dynsym_offset entsize
    strtab_offset : Nat) (func : σ → Nat → Nat → Bool × σ) :
    Nat → Nat → σ → List (Nat × Nat) × σ
  | _, 0, st => ([], st)
  | i, n + 1, st =>
    let sym := img.symbolAt (dynsym_offset + i * entsize)
    if (GUM_ELF_ST_BIND sym.st_info = STB_GLOBAL ∨
        GUM_ELF_ST_BIND sym.st_info = STB_WEAK) ∧
        GUM_ELF_ST_TYPE sym.st_info = STT_FUNC ∧
        sym.st_shndx ≠ SHN_UNDEF then
      let name := strtab_offset + sym.st_name
      let address := base + sym.st_value
      match func st name address with
      | (true, st2) =>
        let (ems, st3) :=
          gum_emit_symbols img base dynsym_offset entsize strtab_offset func
            (i + 1) n st2
        ((name, address) :: ems, st3)
      | (false, st2) => ([(name, address)], st2)
    else
      gum_emit_symbols img base dynsym_offset entsize strtab_offset func
        (i + 1) n st

/-- Environment of one `gum_module_enumerate_exports` call: the base address
recorded by the module lookup (0 when the module was not found), whether
`open` and `mmap` succeed, and the mapped file. -/
structure ExportsEnv where
  moduleBase : Nat
  openOk : Bool
  mmapOk : Bool
  image : ElfImage

/-- What one `gum_module_enumerate_exports` call did: the pairs handed to the
visitor and the resource events (`open`/`close`, `mmap`/`munmap`). -/
structure ExportsResult where
  emissions : List (Nat × Nat)
  opened : Bool
  closed : Bool
  mapped : Bool
  unmapped : Bool

/-- Model of `gum_module_enumerate_exports` with a stateful visitor.  Exit paths in
source order: module not found; `open` failure; the `mmap` assertion;
non-`ET_DYN` file type; the section-walk assertion; no dynsym section found;
and the symbol walk (normal completion or visitor stop).  On every `beach`
exit the mapping, if created, is unmapped and the descriptor, if opened, is
closed. -/
def gum_module_enumerate_exports (env : ExportsEnv)
    (func : σ → Nat → Nat → Bool × σ) (st : σ) :
    Except Unit (ExportsResult × σ) :=
  if env.moduleBase = 0 then
    .ok ({ emissions := [], opened := false, closed := false,
           mapped := false, unmapped := false }, st)
  else if ¬ env.openOk then
    .ok ({ emissions := [], opened := false, closed := false,
           mapped := false, unmapped := false }, st)
  else if ¬ env.mmapOk then
    .error ()
  else if env.image.e_type ≠ ET_DYN then
    .ok ({ emissions := [], opened := true, closed := true,
           mapped := true, unmapped := true }, st)
  else
    match gum_scan_sections env.image with
    | .error e => .error e
    | .ok (dynsym_offset, dynsym_size, dynsym_entsize, strtab_offset) =>
      if dynsym_offset = 0 then
        .ok ({ emissions := [], opened := true, closed := true,
               mapped := true, unmapped := true }, st)
      else
        let (ems, st2) :=
          gum_emit_symbols env.image env.moduleBase dynsym_offset
            dynsym_entsize strtab_offset func 0
            (dynsym_size / dynsym_entsize) st
        .ok ({ emissions := ems, opened := true, closed := true,
               mapped := true, unmapped := true }, st2)

/-- Model of `gum_store_address_if_export_name_matches`: the internal visitor of the
name lookup; the state is `ctx.result`.  On the first name equal to the
sought symbol it records the address and stops. -/
def gum_store_address_if_export_name_matches (img : ElfImage)
    (symbol_name : String) (result : Nat) (name address : Nat) : Bool × Nat :=
  if img.stringAt name = symbol_name then
    (false, address)
  else
    (true, result)

/-- Model of `gum_module_find_export_by_name`: drive the export enumeration with the
matcher visitor starting from `ctx.result = 0` and return the recorded
address. -/
def gum_module_find_export_by_name (env : ExportsEnv)
    (symbol_name : String) : Except Unit Nat :=
  match gum_module_enumerate_exports env
      (gum_store_address_if_export_name_matches env.image symbol_name) 0 with
  | .error e => .error e
  | .ok (_, result) => .ok result

/-! ## Concrete fixtures used by the witness theorems -/

def ucZero : UContext := ⟨fun _ => 0⟩

def cpuZero : GumCpuContext := gum_cpu_context_from_linux ucZero

def stateZero : GumGlobalState :=
  { did_load_cpu_context := false, did_modify_cpu_context := false
    did_store_cpu_context := false, cpu_context := cpuZero
    hijackAction := 0, mutexHeld := false }

def envSame : ModifyThreadEnv :=
  { currentTid := 5, ucSelf := ucZero, tgkillOk := true, targetUc := ucZero }

def envFail : ModifyThreadEnv :=
  { currentTid := 5, ucSelf := ucZero, tgkillOk := false, targetUc := ucZero }

/-- A two-section shared object: a `SHT_DYNSYM` section of two entries (one
exported global function, one weak function with undefined section index)
and its companion string table. -/
def imageDyn : ElfImage :=
  { e_type := 3
    sections := [ElfSectionHeader.mk 11 1 0x100 48 24,
                 ElfSectionHeader.mk 3 0 0x200 16 0]
    symbolAt := fun off =>
      if off = 0x100 then ElfSymbol.mk 1 0x12 1 0x40
      else ElfSymbol.mk 2 0x22 0 0x50
    stringAt := fun off => if off = 0x201 then "malloc" else "" }

def envDyn : ExportsEnv :=
  { moduleBase := 0x400000, openOk := true, mmapOk := true, image := imageDyn }

def envNoModule : ExportsEnv :=
  { moduleBase := 0, openOk := false, mmapOk := false, image := imageDyn }

/-! ## Theorems -/

/-- Claim C8: converting a `CpuContext` into a kernel machine context with
`gum_cpu_context_to_linux` and back with `gum_cpu_context_from_linux` is the
identity on every register the marshaller covers, on both the x86-64 and the
x86-32 bank. -/
theorem gum_cpu_context_linux_roundtrip :
    (∀ (c : GumCpuContext) (uc : UContext),
      gum_cpu_context_from_linux (gum_cpu_context_to_linux c uc) = c) ∧
    (∀ (c : GumCpuContextIa32) (uc : UContext),
      gum_cpu_context_from_linux_ia32 (gum_cpu_context_to_linux_ia32 c uc) = c) :=
  ⟨fun _ _ => rfl, fun _ _ => rfl⟩

/-- Claim C1: when the target id equals the caller's thread id,
`gum_process_modify_thread` invokes the visitor exactly once with the
`CpuContext` converted from the captured context, resumes at the context
obtained by marshalling the mutated `CpuContext` back into the capture, and
returns TRUE; in particular the restoration pass does not invoke the visitor
a second time. -/
theorem gum_process_modify_thread_same_thread (env : ModifyThreadEnv)
    (s : GumGlobalState) (thread_id : Nat)
    (func : Nat → GumCpuContext → GumCpuContext)
    (h : thread_id = env.currentTid) :
    (gum_process_modify_thread env s thread_id func).success = true ∧
    (gum_process_modify_thread env s thread_id func).visitorCalls = 1 ∧
    (gum_process_modify_thread env s thread_id func).resumedCtx =
      some (gum_cpu_context_to_linux
        (func thread_id (gum_cpu_context_from_linux env.ucSelf)) env.ucSelf) := by
  subst h
  simp [gum_process_modify_thread, gum_modify_thread_fast_run,
    gum_modify_thread_fast_pass]

/-- Witness for C1 at a concrete input. -/
theorem gum_process_modify_thread_same_thread_witness :
    (5 : Nat) = envSame.currentTid ∧
    ((gum_process_modify_thread envSame stateZero 5 (fun _ c => c)).success = true ∧
     (gum_process_modify_thread envSame stateZero 5 (fun _ c => c)).visitorCalls = 1 ∧
     (gum_process_modify_thread envSame stateZero 5 (fun _ c => c)).resumedCtx =
       some (gum_cpu_context_to_linux
         ((fun _ c => c) 5 (gum_cpu_context_from_linux envSame.ucSelf))
         envSame.ucSelf)) :=
  ⟨rfl, gum_process_modify_thread_same_thread envSame stateZero 5 (fun _ c => c) rfl⟩

/-- Claim C10: the same-thread fast path acquires no mutex and leaves the whole
process-global rendezvous state (flags, shared context buffer, installed
hijack signal action) exactly as it was. -/
theorem gum_process_modify_thread_fast_path_frame (env : ModifyThreadEnv)
    (s : GumGlobalState) (thread_id : Nat)
    (func : Nat → GumCpuContext → GumCpuContext)
    (h : thread_id = env.currentTid) :
    (gum_process_modify_thread env s thread_id func).state = s ∧
    (gum_process_modify_thread env s thread_id func).acquiredMutex = false := by
  subst h
  simp [gum_process_modify_thread, gum_modify_thread_fast_run,
    gum_modify_thread_fast_pass]

/-- Witness for C10 at a concrete input. -/
theorem gum_process_modify_thread_fast_path_frame_witness :
    (5 : Nat) = envSame.currentTid ∧
    ((gum_process_modify_thread envSame stateZero 5 (fun _ c => c)).state =
       stateZero ∧
     (gum_process_modify_thread envSame stateZero 5 (fun _ c => c)).acquiredMutex =
       false) :=
  ⟨rfl, gum_process_modify_thread_fast_path_frame envSame stateZero 5
    (fun _ c => c) rfl⟩

/-- Claim C2: in the cross-thread branch, when `tgkill` fails the call restores the
previously installed hijack-signal action, releases the mutex, never invokes
the visitor, returns FALSE, and nothing reaches the target thread (the
handler never runs and no context is written back). -/
theorem gum_process_modify_thread_tgkill_failure (env : ModifyThreadEnv)
    (s : GumGlobalState) (thread_id : Nat)
    (func : Nat → GumCpuContext → GumCpuContext)
    (h1 : thread_id ≠ env.currentTid) (h2 : env.tgkillOk = false) :
    (gum_process_modify_thread env s thread_id func).success = false ∧
    (gum_process_modify_thread env s thread_id func).visitorCalls = 0 ∧
    (gum_process_modify_thread env s thread_id func).state.hijackAction =
      s.hijackAction ∧
    (gum_process_modify_thread env s thread_id func).state.mutexHeld = false ∧
    (gum_process_modify_thread env s thread_id func).signalHandlerRan = false ∧
    (gum_process_modify_thread env s thread_id func).targetResumedCtx = none := by
  simp [gum_process_modify_thread, h1, h2]

/-- Witness for C2 at a concrete input. -/
theorem gum_process_modify_thread_tgkill_failure_witness :
    ((6 : Nat) ≠ envFail.currentTid ∧ envFail.tgkillOk = false) ∧
    ((gum_process_modify_thread envFail stateZero 6 (fun _ c => c)).success =
       false ∧
     (gum_process_modify_thread envFail stateZero 6 (fun _ c => c)).visitorCalls =
       0 ∧
     (gum_process_modify_thread envFail stateZero 6
         (fun _ c => c)).state.hijackAction = stateZero.hijackAction ∧
     (gum_process_modify_thread envFail stateZero 6
         (fun _ c => c)).state.mutexHeld = false ∧
     (gum_process_modify_thread envFail stateZero 6
         (fun _ c => c)).signalHandlerRan = false ∧
     (gum_process_modify_thread envFail stateZero 6
         (fun _ c => c)).targetResumedCtx = none) :=
  ⟨⟨by decide, rfl⟩,
   gum_process_modify_thread_tgkill_failure envFail stateZero 6 (fun _ c => c)
     (by decide) rfl⟩

/-- Unsigned 64-bit subtraction agrees with natural subtraction when the
operands are in range and ordered. -/
theorem gsub64_eq_sub {a b : Nat} (h1 : b ≤ a) (h2 : a < 2 ^ 64) :
    gsub64 a b = a - b := by
  unfold gsub64
  have hb : b % 2 ^ 64 = b := Nat.mod_eq_of_lt (lt_of_le_of_lt h1 h2)
  rw [hb]
  have hsplit : a + (2 ^ 64 - b) = (a - b) + 2 ^ 64 := by omega
  rw [hsplit, Nat.add_mod_right]
  exact Nat.mod_eq_of_lt (by omega)

/-- Claim C7: with a visitor that always continues, `gum_linux_enumerate_ranges`
emits, per maps line, the pair (range from `start` to `end - start`, current
protection) exactly when the decoded current protection satisfies
`(current & requested) == requested`; and the permission decoder maps
`"---p"` to NoAccess and `"rwxp"` to Read|Write|Execute, reading `r`, `w`,
`x` at positions 0, 1, 2. -/
theorem gum_linux_enumerate_ranges_filter (prot : Nat)
    (lines : List RangeMapsLine)
    (h : ∀ l ∈ lines, l.start ≤ l.endAddr ∧ l.endAddr < 2 ^ 64) :
    gum_linux_enumerate_ranges prot (fun _ _ => true) lines =
      lines.filterMap (fun l =>
        let cur := gum_page_protection_from_proc_perms_string l.perms
        if cur &&& prot = prot then
          some ({ base_address := l.start, size := l.endAddr - l.start }, cur)
        else
          none) ∧
    gum_page_protection_from_proc_perms_string "---p" = GUM_PAGE_NO_ACCESS ∧
    gum_page_protection_from_proc_perms_string "rwxp" =
      GUM_PAGE_READ ||| GUM_PAGE_WRITE ||| GUM_PAGE_EXECUTE := by
  refine ⟨?_, by decide, by decide⟩
  induction lines with
  | nil => rfl
  | cons l rest ih =>
    have hl := h l (List.mem_cons_self l rest)
    have hrest : ∀ x ∈ rest, x.start ≤ x.endAddr ∧ x.endAddr < 2 ^ 64 :=
      fun x hx => h x (List.mem_cons_of_mem l hx)
    simp only [gum_linux_enumerate_ranges, List.filterMap_cons]
    rw [gsub64_eq_sub hl.1 hl.2]
    split
    · simp [ih hrest]
    · exact ih hrest

/-- Witness for C7 at a concrete input. -/
theorem gum_linux_enumerate_ranges_filter_witness :
    (∀ l ∈ [RangeMapsLine.mk 0x1000 0x3000 "r-xp",
            RangeMapsLine.mk 0x3000 0x4000 "rw-p"],
       l.start ≤ l.endAddr ∧ l.endAddr < 2 ^ 64) ∧
    (gum_linux_enumerate_ranges GUM_PAGE_READ (fun _ _ => true)
        [RangeMapsLine.mk 0x1000 0x3000 "r-xp",
         RangeMapsLine.mk 0x3000 0x4000 "rw-p"] =
      [RangeMapsLine.mk 0x1000 0x3000 "r-xp",
       RangeMapsLine.mk 0x3000 0x4000 "rw-p"].filterMap (fun l =>
        let cur := gum_page_protection_from_proc_perms_string l.perms
        if cur &&& GUM_PAGE_READ = GUM_PAGE_READ then
          some ({ base_address := l.start, size := l.endAddr - l.start }, cur)
        else
          none) ∧
     gum_page_protection_from_proc_perms_string "---p" = GUM_PAGE_NO_ACCESS ∧
     gum_page_protection_from_proc_perms_string "rwxp" =
       GUM_PAGE_READ ||| GUM_PAGE_WRITE ||| GUM_PAGE_EXECUTE) :=
  ⟨by decide,
   gum_linux_enumerate_ranges_filter GUM_PAGE_READ
     [RangeMapsLine.mk 0x1000 0x3000 "r-xp",
      RangeMapsLine.mk 0x3000 0x4000 "rw-p"] (by decide)⟩

/-- Invariants of the module-enumeration loop, for any value of the
`prev_path` buffer: every emission has a non-bracket path and the ELF magic
at its start address; the first emission's path differs from `prev_path`;
and consecutive emissions have distinct paths. -/
theorem gum_enumerate_modules_loop_inv (mem4 : Nat → List Nat)
    (func : String → Nat → String → Bool) :
    ∀ (lines : List ModuleMapsLine) (prev : String),
      (∀ r ∈ gum_enumerate_modules_loop mem4 func lines prev,
          r.2.2.startsWith "[" = false ∧ mem4 r.2.1 = elf_magic) ∧
      (∀ r, (gum_enumerate_modules_loop mem4 func lines prev).head? = some r →
          r.2.2 ≠ prev) ∧
      List.Chain' (fun a b => a.2.2 ≠ b.2.2)
        (gum_enumerate_modules_loop mem4 func lines prev) := by
  intro lines
  induction lines with
  | nil =>
    intro prev
    simp [gum_enumerate_modules_loop]
  | cons l rest ih =>
    intro prev
    match hp : l.path with
    | none =>
      simpa only [gum_enumerate_modules_loop, hp] using ih prev
    | some path =>
      simp only [gum_enumerate_modules_loop, hp]
      split
      · exact ih prev
      · next hskip =>
        simp only [Bool.or_eq_true, decide_eq_true_eq, not_or] at hskip
        obtain ⟨hne, hbrk⟩ := hskip
        split
        · exact ih prev
        · next hmagic =>
          have hmagic2 : mem4 l.start = elf_magic := not_not.mp hmagic
          have hbrk2 : path.startsWith "[" = false :=
            Bool.not_eq_true _ ▸ hbrk
          split
          · obtain ⟨ha, hb, hc⟩ := ih path
            refine ⟨?_, ?_, ?_⟩
            · intro r hr
              rcases List.mem_cons.mp hr with hr | hr
              · subst hr; exact ⟨hbrk2, hmagic2⟩
              · exact ha r hr
            · intro r hr
              rw [List.head?_cons, Option.some_inj] at hr
              subst hr
              exact hne
            · refine List.chain'_cons'.mpr ⟨?_, hc⟩
              intro b hb2
              exact fun hcontra => hb b hb2 hcontra.symm
          · refine ⟨?_, ?_, ?_⟩
            · intro r hr
              rcases List.mem_cons.mp hr with hr | hr
              · subst hr; exact ⟨hbrk2, hmagic2⟩
              · simp at hr
            · intro r hr
              rw [List.head?_cons, Option.some_inj] at hr
              subst hr
              exact hne
            · simp

/-- Pathless maps lines contribute nothing: enumerating with them removed
gives the same output, for any value of the `prev_path` buffer. -/
theorem gum_enumerate_modules_loop_filter (mem4 : Nat → List Nat)
    (func : String → Nat → String → Bool) :
    ∀ (lines : List ModuleMapsLine) (prev : String),
      gum_enumerate_modules_loop mem4 func
          (lines.filter (·.path.isSome)) prev =
        gum_enumerate_modules_loop mem4 func lines prev := by
  intro lines
  induction lines with
  | nil => intro prev; rfl
  | cons l rest ih =>
    intro prev
    match hp : l.path with
    | none =>
      simp only [List.filter_cons, hp, Option.isSome_none, gum_enumerate_modules_loop]
      exact ih prev
    | some path =>
      simp only [List.filter_cons, hp, Option.isSome_some, if_true,
        gum_enumerate_modules_loop]
      split
      · exact ih prev
      · split
        · exact ih prev
        · split
          · rw [ih path]
          · rfl

/-- Claim C6: every record emitted by `gum_process_enumerate_modules` has a path
not beginning with `[`, has the ELF magic `7F 45 4C 46` as the first four
bytes mapped at its base address, and differs in path from the immediately
preceding emitted record; and maps lines without a path field are skipped
(removing them changes nothing). -/
theorem gum_process_enumerate_modules_invariants (mem4 : Nat → List Nat)
    (lines : List ModuleMapsLine) (func : String → Nat → String → Bool) :
    (∀ r ∈ gum_process_enumerate_modules mem4 lines func,
        r.2.2.startsWith "[" = false ∧ mem4 r.2.1 = elf_magic) ∧
    List.Chain' (fun a b => a.2.2 ≠ b.2.2)
      (gum_process_enumerate_modules mem4 lines func) ∧
    gum_process_enumerate_modules mem4 (lines.filter (·.path.isSome)) func =
      gum_process_enumerate_modules mem4 lines func := by
  obtain ⟨ha, _, hc⟩ := gum_enumerate_modules_loop_inv mem4 func lines ""
  exact ⟨ha, hc, gum_enumerate_modules_loop_filter mem4 func lines ""⟩

/-- With a visitor that always continues, the symbol walk emits exactly the
filter of the symbol-table entries: those with global or weak binding,
function type, and a defined section index, each as
`(strtab offset + st_name, base + st_value)`. -/
theorem gum_emit_symbols_continue (img : ElfImage)
    (base dynsym_offset entsize strtab_offset : Nat) :
    ∀ (n i : Nat),
      gum_emit_symbols img base dynsym_offset entsize strtab_offset
          (fun (_ : Unit) _ _ => (true, ())) i n () =
        ((List.range' i n).filterMap (fun j =>
          let sym := img.symbolAt (dynsym_offset + j * entsize)
          if (GUM_ELF_ST_BIND sym.st_info = STB_GLOBAL ∨
              GUM_ELF_ST_BIND sym.st_info = STB_WEAK) ∧
              GUM_ELF_ST_TYPE sym.st_info = STT_FUNC ∧
              sym.st_shndx ≠ SHN_UNDEF then
            some (strtab_offset + sym.st_name, base + sym.st_value)
          else
            none), ()) := by
  intro n
  induction n with
  | zero => intro i; rfl
  | succ n ih =>
    intro i
    rw [List.range'_succ i n 1]
    simp only [gum_emit_symbols, List.filterMap_cons]
    split
    · simp only [ih (i + 1)]
    · exact ih (i + 1)

/-- The matcher visitor computes the address of the first emission whose
name string equals the sought symbol, and keeps its incoming result
otherwise. -/
theorem gum_emit_symbols_matcher (img : ElfImage)
    (base dynsym_offset entsize strtab_offset : Nat) (s : String) :
    ∀ (n i : Nat) (res : Nat),
      (gum_emit_symbols img base dynsym_offset entsize strtab_offset
          (gum_store_address_if_export_name_matches img s) i n res).2 =
        (match (gum_emit_symbols img base dynsym_offset entsize strtab_offset
            (fun (_ : Unit) _ _ => (true, ())) i n ()).1.find?
            (fun e => decide (img.stringAt e.1 = s)) with
         | some e => e.2
         | none => res) := by
  intro n
  induction n with
  | zero => intro i res; rfl
  | succ n ih =>
    intro i res
    simp only [gum_emit_symbols]
    split
    · by_cases hm :
        img.stringAt (strtab_offset + (img.symbolAt
          (dynsym_offset + i * entsize)).st_name) = s
      · simp [gum_store_address_if_export_name_matches, hm]
      · simp only [gum_store_address_if_export_name_matches, if_neg hm]
        simp only [List.find?_cons, decide_eq_true_eq, hm, decide_False]
        exact ih (i + 1) res
    · exact ih (i + 1) res

/-- Hypotheses of claim C4 packaged: the module was found and `open` and `mmap`
succeed. -/
def ExportsEnv.resolved (env : ExportsEnv) : Prop :=
  env.moduleBase ≠ 0 ∧ env.openOk = true ∧ env.mmapOk = true

instance (env : ExportsEnv) : Decidable env.resolved := by
  unfold ExportsEnv.resolved; infer_instance

/-- Claim C4: under a visitor that always continues, `gum_module_enumerate_exports`
emits nothing when the ELF header type is not `ET_DYN`; and when it is, and a
dynamic symbol table was found, the emissions are exactly the symbol-table
entries whose binding is `STB_GLOBAL` or `STB_WEAK`, whose type is
`STT_FUNC`, and whose section index is not `SHN_UNDEF`, each as the pair
`(string table base + st_name, module base + st_value)` — so a local-binding
function symbol, or a weak function symbol with undefined section index, is
never emitted. -/
theorem gum_module_enumerate_exports_spec (env : ExportsEnv)
    (henv : env.resolved) :
    (env.image.e_type ≠ ET_DYN →
      gum_module_enumerate_exports env (fun (_ : Unit) _ _ => (true, ())) () =
        .ok ({ emissions := [], opened := true, closed := true,
               mapped := true, unmapped := true }, ())) ∧
    (∀ dynsym_offset dynsym_size dynsym_entsize strtab_offset,
      gum_scan_sections env.image =
          .ok (dynsym_offset, dynsym_size, dynsym_entsize, strtab_offset) →
      env.image.e_type = ET_DYN →
      dynsym_offset ≠ 0 →
      gum_module_enumerate_exports env (fun (_ : Unit) _ _ => (true, ())) () =
        .ok ({ emissions :=
                 (List.range (dynsym_size / dynsym_entsize)).filterMap (fun j =>
                   let sym := env.image.symbolAt
                     (dynsym_offset + j * dynsym_entsize)
                   if (GUM_ELF_ST_BIND sym.st_info = STB_GLOBAL ∨
                       GUM_ELF_ST_BIND sym.st_info = STB_WEAK) ∧
                       GUM_ELF_ST_TYPE sym.st_info = STT_FUNC ∧
                       sym.st_shndx ≠ SHN_UNDEF then
                     some (strtab_offset + sym.st_name,
                           env.moduleBase + sym.st_value)
                   else
                     none)
               opened := true, closed := true, mapped := true,
               unmapped := true }, ())) := by
  obtain ⟨hbase, hopen, hmmap⟩ := henv
  constructor
  · intro htype
    simp [gum_module_enumerate_exports, hbase, hopen, hmmap, htype]
  · intro dynsym_offset dynsym_size dynsym_entsize strtab_offset hscan htype hoff
    simp only [gum_module_enumerate_exports, if_neg hbase, hopen,
      Bool.true_eq_false, not_false_eq_true, if_neg, hmmap, htype, ET_DYN,
      hscan, if_neg hoff,
      gum_emit_symbols_continue env.image env.moduleBase dynsym_offset
        dynsym_entsize strtab_offset (dynsym_size / dynsym_entsize) 0,
      ← List.range_eq_range']
    simp

/-- Witness for C4 at a concrete input: of the two dynamic symbols only the
exported global function is emitted; the weak function with undefined
section index is filtered out. -/
theorem gum_module_enumerate_exports_spec_witness :
    (envDyn.resolved ∧
     gum_scan_sections envDyn.image = .ok (0x100, 48, 24, 0x200) ∧
     envDyn.image.e_type = ET_DYN ∧ (0x100 : Nat) ≠ 0) ∧
    gum_module_enumerate_exports envDyn (fun (_ : Unit) _ _ => (true, ())) () =
      .ok ({ emissions :=
               (List.range (48 / 24)).filterMap (fun j =>
                 let sym := envDyn.image.symbolAt (0x100 + j * 24)
                 if (GUM_ELF_ST_BIND sym.st_info = STB_GLOBAL ∨
                     GUM_ELF_ST_BIND sym.st_info = STB_WEAK) ∧
                     GUM_ELF_ST_TYPE sym.st_info = STT_FUNC ∧
                     sym.st_shndx ≠ SHN_UNDEF then
                   some (0x200 + sym.st_name, envDyn.moduleBase + sym.st_value)
                 else
                   none)
             opened := true, closed := true, mapped := true,
             unmapped := true }, ()) :=
  ⟨⟨by decide, by rfl, rfl, by decide⟩,
   (gum_module_enumerate_exports_spec envDyn (by decide)).2 0x100 48 24 0x200
     (by rfl) rfl (by decide)⟩

/-- Claim C5: the function `gum_module_find_export_by_name` returns the address of the first
export whose name equals the sought symbol in the order emitted by
`gum_module_enumerate_exports`, and 0 when no emitted export has that
name. -/
theorem gum_module_find_export_by_name_spec (env : ExportsEnv) (s : String) :
    gum_module_find_export_by_name env s =
      (gum_module_enumerate_exports env (fun (_ : Unit) _ _ => (true, ())) ()).map
        (fun out =>
          match out.1.emissions.find?
              (fun e => decide (env.image.stringAt e.1 = s)) with
          | some e => e.2
          | none => 0) := by
  unfold gum_module_find_export_by_name gum_module_enumerate_exports
  by_cases h1 : env.moduleBase = 0
  · simp [h1, Except.map]
  · simp only [if_neg h1]
    by_cases h2 : env.openOk = true
    · simp only [if_neg (not_not_intro h2)]
      by_cases h3 : env.mmapOk = true
      · simp only [if_neg (not_not_intro h3)]
        by_cases h4 : env.image.e_type = ET_DYN
        · simp only [if_neg (not_not_intro h4)]
          cases hscan : gum_scan_sections env.image with
          | error e => simp [hscan, Except.map]
          | ok q =>
            obtain ⟨dynsym_offset, dynsym_size, dynsym_entsize,
              strtab_offset⟩ := q
            by_cases h5 : dynsym_offset = 0
            · simp [hscan, h5, Except.map]
            · simp only [hscan, if_neg h5]
              rw [gum_emit_symbols_matcher env.image env.moduleBase
                dynsym_offset dynsym_entsize strtab_offset s
                (dynsym_size / dynsym_entsize) 0 0]
              simp [Except.map]
        · simp [if_pos h4, Except.map]
      · simp only [Bool.not_eq_true] at h3
        simp [h3, Except.map]
    · simp only [Bool.not_eq_true] at h2
      simp [h2, Except.map]

/-- Claim C9: whatever visitor drives it and whichever exit path it takes, a
completed `gum_module_enumerate_exports` call that created the private
mapping has unmapped it, and one that opened the file descriptor has closed
it. -/
theorem gum_module_enumerate_exports_releases {σ : Type} (env : ExportsEnv)
    (func : σ → Nat → Nat → Bool × σ) (st : σ) (out : ExportsResult × σ)
    (h : gum_module_enumerate_exports env func st = .ok out) :
    (out.1.opened = true → out.1.closed = true) ∧
    (out.1.mapped = true → out.1.unmapped = true) := by
  unfold gum_module_enumerate_exports at h
  repeat' split at h
  all_goals first
    | (injection h with h; subst h; simp)
    | (injection h)

/-- Witness for C9 at a concrete input: a full resolution of the fixture
shared object maps and unmaps, opens and closes. -/
theorem gum_module_enumerate_exports_releases_witness :
    gum_module_enumerate_exports envDyn (fun (_ : Unit) _ _ => (true, ())) () =
      .ok ({ emissions := [(0x201, 0x400040)], opened := true, closed := true,
             mapped := true, unmapped := true }, ()) ∧
    ((({ emissions := [(0x201, 0x400040)], opened := true, closed := true,
         mapped := true, unmapped := true } : ExportsResult),
       ()).1.opened = true →
      (({ emissions := [(0x201, 0x400040)], opened := true, closed := true,
          mapped := true, unmapped := true } : ExportsResult), ()).1.closed =
        true) ∧
    ((({ emissions := [(0x201, 0x400040)], opened := true, closed := true,
         mapped := true, unmapped := true } : ExportsResult),
       ()).1.mapped = true →
      (({ emissions := [(0x201, 0x400040)], opened := true, closed := true,
          mapped := true, unmapped := true } : ExportsResult), ()).1.unmapped =
        true) :=
  ⟨by rfl,
   gum_module_enumerate_exports_releases envDyn (fun (_ : Unit) _ _ => (true, ()))
     () _ (by rfl)⟩

